import Mathlib

/-!
Shallow embedding of ConsoleController.cpp (cross-platform console controller
by Alex Gittemeier and Miles Fogle).  Pure Lean definitions mirror the C++
source; terminal/echo behaviour of the host console is modelled explicitly.
Machine characters are modelled as byte values (Nat below 256); the C type
char is signed on the targeted compilers, so a stored byte b reads back as
the integer b when b is below 128 and b - 256 otherwise.
-/

/-- Screen or cursor coordinate, mirroring the COORD_2D struct (int fields). -/
structure COORD_2D where
  x : Int
  y : Int
deriving DecidableEq, Repr

/-- State of the host terminal: a fixed width, a cursor, and the character
cell contents.  This models the console the controller drives (an external
collaborator of the source, per its comments: echo advances the cursor,
a backspace echo moves it left unless at column 0, a newline echo moves it
to the start of the next row, and output wraps at the right edge). -/
structure TermState where
  width : Int
  cursor : COORD_2D
  screen : COORD_2D → Nat

/-- Terminal effect of writing one byte at the current cursor position. -/
def outputChar (t : TermState) (b : Nat) : TermState :=
  if b = 10 then
    { t with cursor := ⟨0, t.cursor.y + 1⟩ }
  else if b = 8 then
    if t.cursor.x = 0 then t
    else { t with cursor := ⟨t.cursor.x - 1, t.cursor.y⟩ }
  else
    let t1 : TermState := { t with screen := Function.update t.screen t.cursor b }
    if t.cursor.x + 1 ≥ t.width then { t1 with cursor := ⟨0, t.cursor.y + 1⟩ }
    else { t1 with cursor := ⟨t.cursor.x + 1, t.cursor.y⟩ }

/-- ConsoleController::moveCursor — repositions the cursor absolutely. -/
def moveCursor (t : TermState) (x y : Int) : TermState :=
  { t with cursor := ⟨x, y⟩ }

/-- An 80-column terminal with the cursor at the origin and a blank screen. -/
def initialTerm : TermState :=
  { width := 80, cursor := ⟨0, 0⟩, screen := fun _ => 32 }

/-- Low byte of an int converted to char, as byte value (two's complement). -/
def lowByte (k : Int) : Nat :=
  (k % 256).toNat

/-- The tail of ConsoleController::waitForInput translates one step of
the loop `while (echoKey() != '\n');`: each key is echoed and discarded
until a key equal to the int value of a newline is read.  Returns none when
the key stream is exhausted (the real call would block forever). -/
def drainNewline (t : TermState) : List Int → Option (TermState × List Int)
  | [] => none
  | k :: rest =>
    let t1 := outputChar t (lowByte k)
    if k = 10 then some (t1, rest) else drainNewline t1 rest

/-- Backspace block of ConsoleController::waitForInput: given the buffer,
the cursor position captured before the keystroke, and the terminal after
the backspace echo, it pops the buffer and repositions the cursor when the
buffer is non-empty (wrapping to the end of the row above when the captured
column is 0), restores the captured position otherwise, and finally
overwrites the cell under the cursor with a space and puts the cursor back
on it. -/
def backspaceFix (str : List Nat) (pos : COORD_2D) (t1 : TermState) :
    List Nat × TermState :=
  let str2 := if str ≠ [] then str.dropLast else str
  let t2 :=
    if str ≠ [] then
      if pos.x = 0 then moveCursor t1 (t1.width - 1) (pos.y - 1)
      else moveCursor t1 (pos.x - 1) pos.y
    else moveCursor t1 pos.x pos.y
  let pos2 := t2.cursor
  (str2, moveCursor (outputChar t2 32) pos2.x pos2.y)

/-- Loop of ConsoleController::waitForInput(std::string delineators).
The key list is the sequence of values successive waitForKey calls deliver;
each iteration captures the cursor, echoes the key (echoKey stores it in a
char, so only the low byte is kept), then either handles backspace manually
via backspaceFix, exits on a delimiter match, or appends the char to the
accumulated string.  After the exit, keys are drained up to a newline unless
the terminating char was itself a newline.  Returns the accumulated bytes,
the final terminal state, and the unconsumed keys; none when the stream runs
dry. -/
def waitForInputGo (delims : List Nat) (str : List Nat) (t : TermState) :
    List Int → Option (List Nat × TermState × List Int)
  | [] => none
  | k :: rest =>
    let pos := t.cursor
    let t1 := outputChar t (lowByte k)
    let input := lowByte k
    if input = 8 then
      let p := backspaceFix str pos t1
      waitForInputGo delims p.1 p.2 rest
    else if delims.contains input then
      if input = 10 then some (str, t1, rest)
      else
        match drainNewline t1 rest with
        | none => none
        | some (t4, rest4) => some (str, t4, rest4)
    else
      waitForInputGo delims (str ++ [input]) t1 rest

/-- ConsoleController::waitForInput(std::string) — the readLine loop started
with an empty accumulation buffer. -/
def waitForInput (delims : List Nat) (t : TermState) (keys : List Int) :
    Option (List Nat × TermState × List Int) :=
  waitForInputGo delims [] t keys

/-- Observable part of a waitForInput result: returned bytes, final cursor,
unconsumed keys (the screen function is observed separately). -/
def resultView (r : Option (List Nat × TermState × List Int)) :
    Option (List Nat × COORD_2D × List Int) :=
  r.map fun p => (p.1, p.2.1.cursor, p.2.2)

/-- Screen content of a waitForInput result at one cell. -/
def screenAt (r : Option (List Nat × TermState × List Int)) (p : COORD_2D) :
    Option Nat :=
  r.map fun q => q.2.1.screen p

/-- Value of a byte stored in a C char on the targeted compilers (char is
signed there): bytes below 128 read back unchanged, the rest wrap negative. -/
def toSignedChar (b : Nat) : Int :=
  if b % 256 < 128 then ((b % 256 : Nat) : Int) else ((b % 256 : Nat) : Int) - 256

/-- Arrow-key sentinel. Modelled from the spec: the SpecialKeyCode constants
live in ConsoleController.h, which is not in the repository; the spec fixes
them only as a closed set of values distinct from each other, from the
printable character range and from the sentinel 0.  Values 256 upward
realize that. -/
def ARROW_UP : Int := 256

/-- Arrow-key sentinel (see ARROW_UP; modelled from the spec). -/
def ARROW_DOWN : Int := 257

/-- Arrow-key sentinel (see ARROW_UP; modelled from the spec). -/
def ARROW_LEFT : Int := 258

/-- Arrow-key sentinel (see ARROW_UP; modelled from the spec). -/
def ARROW_RIGHT : Int := 259

/-- ConsoleController::waitForKey (_WIN32 branch), over the pending stream of
bytes _getch delivers.  `char result = _getch()` keeps the signed char value;
the code then compares result with the int literals 0 and 0xE0, reads a
second byte when the comparison succeeds, and maps the documented scan codes
to the arrow sentinels, falling back to returning result (with the second
byte already consumed when the prefix test succeeded).  A carriage return is
translated to a newline first.  none models a blocking _getch call on an
exhausted stream. -/
def waitForKey : List Nat → Option (Int × List Nat)
  | [] => none
  | b :: rest =>
    let result := toSignedChar b
    if result = 13 then some (10, rest)
    else if result = 0 ∨ result = 224 then
      match rest with
      | [] => none
      | s :: rest2 =>
        if s = 0x41 ∨ s = 0x48 then some (ARROW_UP, rest2)
        else if s = 0x42 ∨ s = 0x50 then some (ARROW_DOWN, rest2)
        else if s = 0x43 ∨ s = 0x4D then some (ARROW_RIGHT, rest2)
        else if s = 0x44 ∨ s = 0x4B then some (ARROW_LEFT, rest2)
        else some (result, rest2)
    else some (result, rest)

/-- ConsoleController::getKey (_WIN32 branch): `if (_kbhit()) return
waitForKey(); return 0;` — _kbhit reports whether a byte is pending. -/
def getKey (pending : List Nat) : Option (Int × List Nat) :=
  if pending = [] then some (0, pending) else waitForKey pending

/-- The ERR constant of the POSIX terminal library (getch failure / no
input in non-blocking mode). -/
def ncursesERR : Int := -1

/-- The local function posix_translateKey, as a function of the value getch
returned: `if (ch == ERR) return 0; if (ch == '\r') return '\n';` — and then
the function body ends.  none models falling off the end without executing
any return statement (the value the caller decodes is unspecified). -/
def posix_translateKey (ch : Int) : Option Int :=
  if ch = ncursesERR then some 0
  else if ch = 13 then some 10
  else none

/-- ConsoleController::getKey (POSIX branch): `timeout(0)` makes getch
non-blocking, so it yields ERR when nothing is pending and the first pending
key otherwise; the result is passed through posix_translateKey. -/
def getKeyPosix (pending : List Int) : Option Int :=
  match pending with
  | [] => posix_translateKey ncursesERR
  | c :: _ => posix_translateKey c

/-- Second byte of a two-byte sequence that the waitForKey switch maps to an
arrow sentinel. -/
def arrowScan (s : Nat) : Bool :=
  s = 0x41 || s = 0x48 || s = 0x42 || s = 0x50 ||
  s = 0x43 || s = 0x4D || s = 0x44 || s = 0x4B

/-- A pending byte stream whose front is a key this module can decode: a
single nonzero byte (an ordinary keystroke, including the carriage return),
or a two-byte special sequence with prefix byte 0 and an arrow scan code. -/
def decodablePending : List Nat → Bool
  | [] => false
  | b :: rest =>
    (decide (b ≠ 0) && decide (b < 256)) ||
    (decide (b = 0) && match rest with | s :: _ => arrowScan s | [] => false)

/-- Color descriptor stored in the _WIN32 color table (COLOR struct). -/
structure COLOR where
  foreground : Int
  background : Int
  foreBold : Bool
  backBold : Bool
deriving DecidableEq, Repr

/-- The all-zero descriptor the constructor writes into every slot. -/
def defaultColor : COLOR := ⟨0, 0, false, false⟩

/-- Console-lifecycle events the constructor and destructor can emit.
setup stands for the one-time raw-mode initialization of the first
construction (console handle / initscr, cbreak, noecho, keypad, start_color,
followed by cls); teardown for the final cls plus mode restoration. -/
inductive Ev where
  | setup
  | teardown
deriving DecidableEq, Repr

/-- Static state shared by all handles: the instance count and the _WIN32
color table (256 slots, indexed by COLOR_ID). -/
structure GState where
  classInstances : Int
  colors : Fin 256 → COLOR

/-- ConsoleController::ConsoleController — on the first allocation (count 0)
performs the one-time console setup and resets every color slot to the
all-default descriptor, then increments the count; otherwise it only
increments the count. -/
def construct (s : GState) : GState × List Ev :=
  if s.classInstances = 0 then
    ({ classInstances := s.classInstances + 1, colors := fun _ => defaultColor },
      [Ev.setup])
  else
    ({ s with classInstances := s.classInstances + 1 }, [])

/-- ConsoleController::~ConsoleController — decrements the count and, when it
reaches 0, clears the screen and restores the terminal mode. -/
def destroy (s : GState) : GState × List Ev :=
  if s.classInstances - 1 = 0 then
    ({ s with classInstances := s.classInstances - 1 }, [Ev.teardown])
  else
    ({ s with classInstances := s.classInstances - 1 }, [])

/-- A handle lifecycle operation. -/
inductive Op where
  | construct
  | destroy
deriving DecidableEq, Repr

/-- Run a sequence of constructions and destructions against the shared
state, collecting the emitted events in order. -/
def runOps (s : GState) : List Op → GState × List Ev
  | [] => (s, [])
  | o :: rest =>
    let p := match o with | Op.construct => construct s | Op.destroy => destroy s
    let q := runOps p.1 rest
    (q.1, p.2 ++ q.2)

/-- Number of constructions that execute while the instance count is 0 when
the count currently is n — the starts of maximal nesting runs. -/
def countStarts (n : Int) : List Op → Nat
  | [] => 0
  | Op.construct :: rest => (if n = 0 then 1 else 0) + countStarts (n + 1) rest
  | Op.destroy :: rest => countStarts (n - 1) rest

/-- Number of destructions that bring the instance count back to 0 when the
count currently is n — the ends of maximal nesting runs. -/
def countFinishes (n : Int) : List Op → Nat
  | [] => 0
  | Op.construct :: rest => countFinishes (n + 1) rest
  | Op.destroy :: rest => (if n - 1 = 0 then 1 else 0) + countFinishes (n - 1) rest

/-- Instance count after running the operations from count n. -/
def finalCount (n : Int) : List Op → Int
  | [] => n
  | Op.construct :: rest => finalCount (n + 1) rest
  | Op.destroy :: rest => finalCount (n - 1) rest

/-- An operation sequence is balanced from count n when no destruction runs
with the count at 0 or below. -/
def validFrom (n : Int) : List Op → Bool
  | [] => true
  | Op.construct :: rest => validFrom (n + 1) rest
  | Op.destroy :: rest => decide (1 ≤ n) && validFrom (n - 1) rest

/-- Number of occurrences of one event in a trace. -/
def countEv (e : Ev) (l : List Ev) : Nat :=
  l.count e

/-- ConsoleController::initColor (_WIN32 branch): builds the descriptor from
the arguments and stores it in the slot for the given id. -/
def initColor (colors : Fin 256 → COLOR) (colorId : Fin 256)
    (fg bg : Int) (fBold bBold : Bool) : Fin 256 → COLOR :=
  Function.update colors colorId ⟨fg, bg, fBold, bBold⟩

/-- Per-handle throttle state. Modelled from the spec: the data members
throttleInitialized and throttleLast are declared in the missing header;
the spec describes them as an initialized flag plus a last-tick timestamp.
Tick values are rationals, modelling the double arithmetic of throttle
exactly. -/
structure TState where
  throttleInit : Bool
  throttleLast : ℚ
deriving DecidableEq, Repr

/-- ConsoleController::throttle for one call: cps is CLOCKS_PER_SEC and now
the value clock() reads during the call (the two reads of one call are
modelled as the same tick).  Returns the new state and the sleepMs argument
when the call sleeps, none when it returns immediately. -/
def throttle (cps : ℚ) (ms : Int) (now : ℚ) (s : TState) : TState × Option ℚ :=
  if s.throttleInit then
    let last := s.throttleLast + (ms : ℚ) / 1000 * cps
    if last > now then ({ s with throttleLast := last }, some (last - now))
    else ({ s with throttleLast := last }, none)
  else
    ({ throttleInit := true, throttleLast := now }, none)

/-- Run a sequence of throttle calls, each given as requested interval plus
the clock tick observed during the call, collecting the sleeps. -/
def runThrottle (cps : ℚ) (s : TState) : List (Int × ℚ) → TState × List (Option ℚ)
  | [] => (s, [])
  | (ms, now) :: rest =>
    let p := throttle cps ms now s
    let q := runThrottle cps p.1 rest
    (q.1, p.2 :: q.2)

/-- Cell a non-empty-buffer backspace erases: the end of the previous row
when the pre-keystroke cursor column is 0, otherwise one column back. -/
def backTarget (t : TermState) : COORD_2D :=
  if t.cursor.x = 0 then ⟨t.width - 1, t.cursor.y - 1⟩
  else ⟨t.cursor.x - 1, t.cursor.y⟩

lemma lowByte_ofNat (c : Nat) (h : c < 256) : lowByte (c : Int) = c := by
  unfold lowByte
  rw [Int.emod_eq_of_lt (by positivity) (by exact_mod_cast h)]
  simp

lemma moveCursor_outputChar (t : TermState) (b : Nat) (h10 : b ≠ 10)
    (h8 : b ≠ 8) (x y : Int) :
    moveCursor (outputChar t b) x y
      = { t with cursor := ⟨x, y⟩, screen := Function.update t.screen t.cursor b } := by
  simp only [outputChar, moveCursor, if_neg h10, if_neg h8]
  split <;> rfl

lemma outputChar_bs (t : TermState) :
    outputChar t 8 = if t.cursor.x = 0 then t
      else { t with cursor := ⟨t.cursor.x - 1, t.cursor.y⟩ } := rfl

lemma backspaceFix_pop (str : List Nat) (t : TermState) (h : str ≠ []) :
    backspaceFix str t.cursor (outputChar t 8)
      = (str.dropLast,
         { t with cursor := backTarget t,
                  screen := Function.update t.screen (backTarget t) 32 }) := by
  by_cases hx : t.cursor.x = 0
  · simp only [backspaceFix, outputChar_bs, if_pos hx, if_pos h, ne_eq, h,
      not_false_iff, if_true, backTarget]
    rw [moveCursor_outputChar _ 32 (by decide) (by decide)]
    rfl
  · simp only [backspaceFix, outputChar_bs, if_neg hx, ne_eq, h,
      not_false_iff, if_true, backTarget]
    rw [moveCursor_outputChar _ 32 (by decide) (by decide)]
    rfl

lemma moveCursor_outputChar_bs (t : TermState) (x y : Int) :
    moveCursor (outputChar t 8) x y = { t with cursor := ⟨x, y⟩ } := by
  rw [outputChar_bs]
  split <;> rfl

lemma backspaceFix_empty (t : TermState) :
    backspaceFix [] t.cursor (outputChar t 8)
      = ([], { t with screen := Function.update t.screen t.cursor 32 }) := by
  have h2 : moveCursor (outputChar t 8) t.cursor.x t.cursor.y = t := by
    rw [moveCursor_outputChar_bs]
  simp only [backspaceFix, ne_eq, not_true_eq_false, if_false, h2]
  rw [moveCursor_outputChar _ 32 (by decide) (by decide)]

lemma go_backspace (delims str : List Nat) (t : TermState) (rest : List Int) :
    waitForInputGo delims str t ((8 : Int) :: rest)
      = waitForInputGo delims (backspaceFix str t.cursor (outputChar t 8)).1
          (backspaceFix str t.cursor (outputChar t 8)).2 rest := rfl

lemma go_backspace_pop (delims str : List Nat) (t : TermState) (rest : List Int)
    (h : str ≠ []) :
    waitForInputGo delims str t ((8 : Int) :: rest)
      = waitForInputGo delims str.dropLast
          { t with cursor := backTarget t,
                   screen := Function.update t.screen (backTarget t) 32 } rest := by
  rw [go_backspace, backspaceFix_pop str t h]

lemma go_backspace_empty (delims : List Nat) (t : TermState) (rest : List Int) :
    waitForInputGo delims [] t ((8 : Int) :: rest)
      = waitForInputGo delims []
          { t with screen := Function.update t.screen t.cursor 32 } rest := by
  rw [go_backspace, backspaceFix_empty t]

lemma go_append (delims acc : List Nat) (t : TermState) (k : Int)
    (rest : List Int) (h8 : lowByte k ≠ 8)
    (hd : delims.contains (lowByte k) = false) :
    waitForInputGo delims acc t (k :: rest)
      = waitForInputGo delims (acc ++ [lowByte k]) (outputChar t (lowByte k)) rest := by
  simp only [waitForInputGo, if_neg h8, hd, Bool.false_eq_true, if_false]

lemma go_delim (delims acc : List Nat) (t : TermState) (d : Int)
    (tail : List Int) (h8 : lowByte d ≠ 8)
    (hd : delims.contains (lowByte d) = true) :
    waitForInputGo delims acc t (d :: tail)
      = if lowByte d = 10 then some (acc, outputChar t (lowByte d), tail)
        else
          match drainNewline (outputChar t (lowByte d)) tail with
          | none => none
          | some (t4, rest4) => some (acc, t4, rest4) := by
  simp only [waitForInputGo, if_neg h8, hd, if_true]

lemma go_delim_fst (delims acc : List Nat) (t : TermState) (d : Int)
    (tail : List Int) (h8 : lowByte d ≠ 8)
    (hd : delims.contains (lowByte d) = true) :
    ∀ res, waitForInputGo delims acc t (d :: tail) = some res → res.1 = acc := by
  intro res hres
  rw [go_delim delims acc t d tail h8 hd] at hres
  by_cases h10 : lowByte d = 10
  · rw [if_pos h10] at hres
    cases hres
    rfl
  · rw [if_neg h10] at hres
    cases hdr : drainNewline (outputChar t (lowByte d)) tail with
    | none => rw [hdr] at hres; cases hres
    | some p =>
      obtain ⟨t4, rest4⟩ := p
      rw [hdr] at hres
      cases hres
      rfl

/-- Terminal state after echoing a list of bytes in order. -/
def echoChars (t : TermState) (l : List Nat) : TermState :=
  l.foldl outputChar t

lemma go_printables (delims : List Nat) (chars : List Nat) :
    ∀ (acc : List Nat) (t : TermState) (ks : List Int),
    (∀ c ∈ chars, 32 ≤ c ∧ c ≤ 126 ∧ delims.contains c = false) →
    waitForInputGo delims acc t (chars.map (fun (c : Nat) => (c : Int)) ++ ks)
      = waitForInputGo delims (acc ++ chars) (echoChars t chars) ks := by
  induction chars with
  | nil => intro acc t ks _; simp [echoChars]
  | cons c cs ih =>
    intro acc t ks h
    obtain ⟨h32, h126, hnd⟩ := h c (List.mem_cons_self c cs)
    have hc : lowByte (c : Int) = c := lowByte_ofNat c (by omega)
    have h8 : lowByte (c : Int) ≠ 8 := by omega
    have hd : delims.contains (lowByte (c : Int)) = false := by rw [hc]; exact hnd
    simp only [List.map_cons, List.cons_append]
    rw [go_append delims acc t (c : Int) _ h8 hd, hc,
      ih (acc ++ [c]) (outputChar t c) ks (fun x hx => h x (List.mem_cons_of_mem c hx))]
    rw [List.append_assoc]
    rfl

lemma runOps_cons (s : GState) (o : Op) (rest : List Op) :
    runOps s (o :: rest)
      = ((runOps (match o with | Op.construct => construct s | Op.destroy => destroy s).1 rest).1,
         (match o with | Op.construct => construct s | Op.destroy => destroy s).2
           ++ (runOps (match o with | Op.construct => construct s | Op.destroy => destroy s).1 rest).2) := rfl

lemma countEv_append (e : Ev) (a b : List Ev) :
    countEv e (a ++ b) = countEv e a + countEv e b := by
  simp [countEv, List.count_append]

lemma construct_fst_count (s : GState) :
    (construct s).1.classInstances = s.classInstances + 1 := by
  unfold construct
  split <;> rfl

lemma destroy_fst_count (s : GState) :
    (destroy s).1.classInstances = s.classInstances - 1 := by
  unfold destroy
  split <;> rfl

lemma construct_setup_count (s : GState) :
    countEv Ev.setup (construct s).2 = if s.classInstances = 0 then 1 else 0 := by
  unfold construct
  split <;> simp_all [countEv]

lemma construct_teardown_count (s : GState) :
    countEv Ev.teardown (construct s).2 = 0 := by
  unfold construct
  split <;> simp [countEv]

lemma destroy_teardown_count (s : GState) :
    countEv Ev.teardown (destroy s).2 = if s.classInstances - 1 = 0 then 1 else 0 := by
  unfold destroy
  split <;> simp_all [countEv]

lemma destroy_setup_count (s : GState) :
    countEv Ev.setup (destroy s).2 = 0 := by
  unfold destroy
  split <;> simp [countEv]

lemma runOps_setup_count : ∀ (ops : List Op) (s : GState),
    countEv Ev.setup (runOps s ops).2 = countStarts s.classInstances ops := by
  intro ops
  induction ops with
  | nil => intro s; simp [runOps, countEv, countStarts]
  | cons o rest ih =>
    intro s
    cases o with
    | construct =>
      rw [runOps_cons]
      show countEv Ev.setup ((construct s).2 ++ (runOps (construct s).1 rest).2) = _
      rw [countEv_append, ih ((construct s).1), construct_fst_count,
        construct_setup_count, countStarts]
    | destroy =>
      rw [runOps_cons]
      show countEv Ev.setup ((destroy s).2 ++ (runOps (destroy s).1 rest).2) = _
      rw [countEv_append, ih ((destroy s).1), destroy_fst_count,
        destroy_setup_count, countStarts]
      simp

lemma runOps_teardown_count : ∀ (ops : List Op) (s : GState),
    countEv Ev.teardown (runOps s ops).2 = countFinishes s.classInstances ops := by
  intro ops
  induction ops with
  | nil => intro s; simp [runOps, countEv, countFinishes]
  | cons o rest ih =>
    intro s
    cases o with
    | construct =>
      rw [runOps_cons]
      show countEv Ev.teardown ((construct s).2 ++ (runOps (construct s).1 rest).2) = _
      rw [countEv_append, ih ((construct s).1), construct_fst_count,
        construct_teardown_count, countFinishes]
      simp
    | destroy =>
      rw [runOps_cons]
      show countEv Ev.teardown ((destroy s).2 ++ (runOps (destroy s).1 rest).2) = _
      rw [countEv_append, ih ((destroy s).1), destroy_fst_count,
        destroy_teardown_count, countFinishes]

lemma starts_sub_finishes : ∀ (ops : List Op) (n : Int), 0 ≤ n →
    validFrom n ops = true →
    (countStarts n ops : Int) - (countFinishes n ops : Int)
      = (if 0 < finalCount n ops then 1 else 0) - (if 0 < n then 1 else 0) := by
  intro ops
  induction ops with
  | nil => intro n hn _; simp [countStarts, countFinishes, finalCount]
  | cons o rest ih =>
    intro n hn hv
    cases o with
    | construct =>
      have hv1 : validFrom (n + 1) rest = true := hv
      have h := ih (n + 1) (by omega) hv1
      simp only [countStarts, countFinishes, finalCount]
      push_cast
      split_ifs at * <;> omega
    | destroy =>
      have hv' : (decide (1 ≤ n) && validFrom (n - 1) rest) = true := hv
      rw [Bool.and_eq_true, decide_eq_true_eq] at hv'
      obtain ⟨hn1, hv1⟩ := hv'
      have h := ih (n - 1) (by omega) hv1
      simp only [countStarts, countFinishes, finalCount]
      push_cast
      split_ifs at * <;> omega

lemma starts_eq_finishes (ops : List Op) (hv : validFrom 0 ops = true)
    (hf : finalCount 0 ops = 0) :
    countStarts 0 ops = countFinishes 0 ops := by
  have h := starts_sub_finishes ops 0 le_rfl hv
  rw [hf] at h
  simp at h
  omega

lemma throttle_first (cps : ℚ) (ms : Int) (now last : ℚ) :
    throttle cps ms now ⟨false, last⟩ = (⟨true, now⟩, none) := rfl

lemma throttle_next (cps : ℚ) (ms : Int) (now : ℚ) (s : TState)
    (h : s.throttleInit = true) :
    throttle cps ms now s
      = ({ s with throttleLast := s.throttleLast + (ms : ℚ) / 1000 * cps },
         if now < s.throttleLast + (ms : ℚ) / 1000 * cps
         then some (s.throttleLast + (ms : ℚ) / 1000 * cps - now) else none) := by
  simp only [throttle, h, if_true]
  split <;> rfl

lemma throttle_zero_step (cps : ℚ) (q last : ℚ) (hle : last ≤ q) :
    throttle cps 0 q ⟨true, last⟩ = (⟨true, last⟩, none) := by
  rw [throttle_next cps 0 q ⟨true, last⟩ rfl]
  norm_num
  intro hlt
  exact absurd hlt (not_lt.mpr hle)

lemma runThrottle_zero_init : ∀ (reads : List ℚ) (cps last : ℚ),
    (∀ q ∈ reads, last ≤ q) →
    ∀ o ∈ (runThrottle cps ⟨true, last⟩
        (reads.map (fun (q : ℚ) => ((0 : Int), q)))).2, o = none := by
  intro reads
  induction reads with
  | nil => intro cps last _ o ho; simp [runThrottle] at ho
  | cons q qs ih =>
    intro cps last h o ho
    have hq : last ≤ q := h q (List.mem_cons_self q qs)
    have hstep : runThrottle cps ⟨true, last⟩
          ((q :: qs).map (fun (q : ℚ) => ((0 : Int), q)))
        = ((runThrottle cps ⟨true, last⟩ (qs.map (fun (q : ℚ) => ((0 : Int), q)))).1,
           none :: (runThrottle cps ⟨true, last⟩
             (qs.map (fun (q : ℚ) => ((0 : Int), q)))).2) := by
      simp [runThrottle, throttle_zero_step cps q last hq]
    rw [hstep] at ho
    rcases List.mem_cons.mp ho with h1 | h1
    · exact h1
    · exact ih cps last (fun x hx => h x (List.mem_cons_of_mem q hx)) o h1

lemma toSignedChar_of_lt (b : Nat) (hb : b < 256) :
    toSignedChar b = if b < 128 then (b : Int) else (b : Int) - 256 := by
  simp [toSignedChar, Nat.mod_eq_of_lt hb]

lemma waitForKey_ne_zero (b : Nat) (rest : List Nat)
    (hp : decodablePending (b :: rest) = true) :
    ∀ k r, waitForKey (b :: rest) = some (k, r) → k ≠ 0 := by
  intro k r hk
  simp only [decodablePending, Bool.or_eq_true, Bool.and_eq_true,
    decide_eq_true_eq] at hp
  rcases hp with ⟨hb0, hb256⟩ | ⟨hb0, hrest⟩
  · have hts := toSignedChar_of_lt b hb256
    by_cases h13 : toSignedChar b = 13
    · simp only [waitForKey, if_pos h13] at hk
      cases hk
      decide
    · have h0 : toSignedChar b ≠ 0 := by rw [hts]; split_ifs <;> omega
      have h224 : toSignedChar b ≠ 224 := by rw [hts]; split_ifs <;> omega
      have hor : ¬(toSignedChar b = 0 ∨ toSignedChar b = 224) := by
        push_neg
        exact ⟨h0, h224⟩
      simp only [waitForKey, if_neg h13, if_neg hor] at hk
      cases hk
      exact h0
  · subst hb0
    cases rest with
    | nil => simp at hrest
    | cons s rest2 =>
      simp only [arrowScan, Bool.or_eq_true, decide_eq_true_eq] at hrest
      rcases hrest with ((((((h | h) | h) | h) | h) | h) | h) | h <;> subst h <;>
        cases hk <;> decide

/-- Claim C1: for every balanced sequence of handle constructions and
destructions, the one-time raw-mode setup (with the color table reset to
all-default descriptors) runs exactly on the constructions that find the
instance count at 0 — once per maximal nesting run — and the teardown runs
exactly on the destructions that return the count to 0; at any other count a
construction or destruction changes only the count. -/
theorem lifecycle_setup_teardown_once :
    (∀ s : GState, s.classInstances = 0 →
       construct s = ({ classInstances := s.classInstances + 1,
                        colors := fun _ => defaultColor }, [Ev.setup]))
  ∧ (∀ s : GState, s.classInstances ≠ 0 →
       construct s = ({ s with classInstances := s.classInstances + 1 }, []))
  ∧ (∀ s : GState, s.classInstances - 1 = 0 →
       destroy s = ({ s with classInstances := s.classInstances - 1 }, [Ev.teardown]))
  ∧ (∀ s : GState, s.classInstances - 1 ≠ 0 →
       destroy s = ({ s with classInstances := s.classInstances - 1 }, []))
  ∧ (∀ (ops : List Op) (s : GState),
       countEv Ev.setup (runOps s ops).2 = countStarts s.classInstances ops
       ∧ countEv Ev.teardown (runOps s ops).2 = countFinishes s.classInstances ops)
  ∧ (∀ ops : List Op, validFrom 0 ops = true → finalCount 0 ops = 0 →
       countStarts 0 ops = countFinishes 0 ops) := by
  refine ⟨?_, ?_, ?_, ?_, ?_, starts_eq_finishes⟩
  · intro s h; simp [construct, h]
  · intro s h; simp [construct, h]
  · intro s h; simp [destroy, h]
  · intro s h; simp [destroy, h]
  · intro ops s; exact ⟨runOps_setup_count ops s, runOps_teardown_count ops s⟩

/-- Witness for claim C1 at concrete states and a concrete balanced
sequence. -/
theorem lifecycle_setup_teardown_once_witness :
    ((0 : Int) = 0 ∧ construct ⟨0, fun _ => defaultColor⟩
        = (⟨0 + 1, fun _ => defaultColor⟩, [Ev.setup]))
  ∧ ((1 : Int) ≠ 0 ∧ construct ⟨1, fun _ => defaultColor⟩
        = (⟨1 + 1, fun _ => defaultColor⟩, []))
  ∧ ((1 : Int) - 1 = 0 ∧ destroy ⟨1, fun _ => defaultColor⟩
        = (⟨1 - 1, fun _ => defaultColor⟩, [Ev.teardown]))
  ∧ ((2 : Int) - 1 ≠ 0 ∧ destroy ⟨2, fun _ => defaultColor⟩
        = (⟨2 - 1, fun _ => defaultColor⟩, []))
  ∧ (validFrom 0 [Op.construct, Op.construct, Op.destroy, Op.destroy] = true
      ∧ finalCount 0 [Op.construct, Op.construct, Op.destroy, Op.destroy] = 0
      ∧ countStarts 0 [Op.construct, Op.construct, Op.destroy, Op.destroy]
          = countFinishes 0 [Op.construct, Op.construct, Op.destroy, Op.destroy]) :=
  ⟨⟨rfl, lifecycle_setup_teardown_once.1 ⟨0, fun _ => defaultColor⟩ rfl⟩,
   ⟨by decide, lifecycle_setup_teardown_once.2.1 ⟨1, fun _ => defaultColor⟩ (by decide)⟩,
   ⟨by decide, lifecycle_setup_teardown_once.2.2.1 ⟨1, fun _ => defaultColor⟩ (by decide)⟩,
   ⟨by decide, lifecycle_setup_teardown_once.2.2.2.1 ⟨2, fun _ => defaultColor⟩ (by decide)⟩,
   by decide, by decide,
   lifecycle_setup_teardown_once.2.2.2.2.2 _ (by decide) (by decide)⟩

/-- Claim C2: for an input key sequence of printable non-backspace,
non-delimiter characters followed by a key matching the caller-supplied
delimiter set, readLine (waitForInput) returns exactly the accumulated
characters without the delimiter; in particular with delimiter set
consisting of the newline and keys for the text abc plus a newline it
returns the three bytes of abc. -/
theorem readLine_returns_accumulated :
    (∀ (chars delims : List Nat) (d : Int) (tail : List Int) (t : TermState)
       (str : List Nat) (t' : TermState) (rem : List Int),
       (∀ c ∈ chars, 32 ≤ c ∧ c ≤ 126 ∧ delims.contains c = false) →
       delims.contains (lowByte d) = true → lowByte d ≠ 8 →
       waitForInput delims t (chars.map (fun (c : Nat) => (c : Int)) ++ d :: tail)
         = some (str, t', rem) →
       str = chars)
  ∧ resultView (waitForInput [10] initialTerm [97, 98, 99, 10])
      = some ([97, 98, 99], ⟨0, 1⟩, []) := by
  constructor
  · intro chars delims d tail t str t' rem hch hd h8 hres
    rw [waitForInput, go_printables delims chars [] t (d :: tail) hch] at hres
    have h := go_delim_fst delims ([] ++ chars) (echoChars t chars) d tail h8 hd _ hres
    simpa using h
  · decide

/-- Witness for claim C2 at the concrete input abc followed by newline. -/
theorem readLine_returns_accumulated_witness :
    (∀ c ∈ ([97, 98, 99] : List Nat),
       32 ≤ c ∧ c ≤ 126 ∧ ([10] : List Nat).contains c = false)
    ∧ ([10] : List Nat).contains (lowByte 10) = true
    ∧ lowByte (10 : Int) ≠ 8
    ∧ ∀ (str : List Nat) (t' : TermState) (rem : List Int),
        waitForInput [10] initialTerm
          (([97, 98, 99] : List Nat).map (fun (c : Nat) => (c : Int)) ++ (10 : Int) :: [])
          = some (str, t', rem) → str = [97, 98, 99] := by
  refine ⟨by decide, by decide, by decide, ?_⟩
  intro str t' rem h
  exact readLine_returns_accumulated.1 [97, 98, 99] [10] 10 [] initialTerm str t' rem
    (by decide) (by decide) (by decide) h

/-- Claim C3 (counterexample): running readLine on the keys of the text ab,
two backspaces, c, newline returns just the byte of c — but the final cursor
is the start of the next row (0, 1), not the cell (1, 0) immediately after
the echoed c (which the screen shows at (0, 0)): the loop echoes the
terminating newline before exiting, advancing the cursor to the next row. -/
theorem readLine_backspace_cursor_counterexample :
    resultView (waitForInput [10] initialTerm [97, 98, 8, 8, 99, 10])
      = some ([99], ⟨0, 1⟩, [])
    ∧ screenAt (waitForInput [10] initialTerm [97, 98, 8, 8, 99, 10]) ⟨0, 0⟩
      = some 99
    ∧ (⟨0, 1⟩ : COORD_2D) ≠ ⟨1, 0⟩ := by
  decide

/-- Claim C3 (amended): a backspace keystroke with a non-empty buffer
removes the buffer's last character and erases the corresponding screen cell
(wrapping to the end of the previous row when the pre-keystroke cursor
column was 0); on the keys of ab, two backspaces, c, newline readLine
returns the byte of c, and the cursor ends at the start of the row below the
echoed c because the terminating newline is echoed too. -/
theorem readLine_backspace_erase_amended :
    (∀ (delims str : List Nat) (t : TermState) (rest : List Int), str ≠ [] →
       waitForInputGo delims str t ((8 : Int) :: rest)
         = waitForInputGo delims str.dropLast
             { t with cursor := backTarget t,
                      screen := Function.update t.screen (backTarget t) 32 } rest)
  ∧ resultView (waitForInput [10] initialTerm [97, 98, 8, 8, 99, 10])
      = some ([99], ⟨0, 1⟩, []) :=
  ⟨go_backspace_pop, by decide⟩

/-- Witness for claim C3 (amended) at a concrete non-empty buffer. -/
theorem readLine_backspace_erase_amended_witness :
    ([97] : List Nat) ≠ []
    ∧ waitForInputGo [10] [97] initialTerm [(8 : Int)]
        = waitForInputGo [10] ([97] : List Nat).dropLast
            { initialTerm with
                cursor := backTarget initialTerm,
                screen := Function.update initialTerm.screen
                  (backTarget initialTerm) 32 } [] :=
  ⟨by decide, readLine_backspace_erase_amended.1 [10] [97] initialTerm [] (by decide)⟩

/-- Claim C4: a backspace keystroke with an empty buffer leaves the buffer
empty, and after the full handling of the keystroke the cursor equals the
position captured before the keystroke (the echo-induced cursor move is
compensated); the only terminal change is the space written over the cell at
that position. -/
theorem readLine_backspace_empty_buffer (delims : List Nat) (t : TermState)
    (rest : List Int) :
    waitForInputGo delims [] t ((8 : Int) :: rest)
      = waitForInputGo delims []
          { t with screen := Function.update t.screen t.cursor 32 } rest
    ∧ ({ t with screen := Function.update t.screen t.cursor 32 } : TermState).cursor
      = t.cursor :=
  ⟨go_backspace_empty delims t rest, rfl⟩

/-- Claim C5: evaluation of posix_translateKey on each path — a failed read
(ERR) returns the neutral sentinel 0 before any carriage-return translation,
and a carriage return returns a newline, but any other key (for example the
letter a, 97) reaches the end of the function without executing any return
statement: the routine does not return a defined value on every path. -/
theorem posix_translateKey_eval :
    posix_translateKey ncursesERR = some 0
    ∧ posix_translateKey 13 = some 10
    ∧ posix_translateKey 97 = none := by
  decide

/-- Claim C6: pollKey (getKey) with no pending input returns the neutral
sentinel 0 immediately on both platform branches, and on the _WIN32 branch a
pending decodable key never yields 0; but on the POSIX branch a pending
non-carriage-return key falls into the posix_translateKey fall-through, so
no defined value — in particular no guarantee of a nonzero one — is
returned there. -/
theorem pollKey_sentinel :
    getKey [] = some (0, [])
    ∧ getKeyPosix [] = some 0
    ∧ (∀ p : List Nat, decodablePending p = true →
        ∀ k r, getKey p = some (k, r) → k ≠ 0)
    ∧ getKeyPosix [97] = none := by
  refine ⟨rfl, rfl, ?_, rfl⟩
  intro p hp k r hk
  cases p with
  | nil => simp [decodablePending] at hp
  | cons b rest =>
    have hg : getKey (b :: rest) = waitForKey (b :: rest) := by simp [getKey]
    rw [hg] at hk
    exact waitForKey_ne_zero b rest hp k r hk

/-- Witness for claim C6 at a concrete pending ordinary keystroke. -/
theorem pollKey_sentinel_witness :
    decodablePending [97] = true
    ∧ ∀ k r, getKey [97] = some (k, r) → k ≠ 0 :=
  ⟨by decide, pollKey_sentinel.2.2.1 [97] (by decide)⟩

/-- Claim C7: evaluation of blockingReadKey (waitForKey, _WIN32 branch) — a
carriage return yields the newline code, a two-byte arrow sequence with
prefix byte 0 yields the matching arrow sentinel, an ordinary key yields its
own code; but a two-byte arrow sequence with prefix byte 0xE0 yields the raw
prefix byte read back from the signed char (-32) with the scan code left
pending, because the comparison of the signed char against the int literal
0xE0 can never succeed — not the arrow sentinel the claim requires. -/
theorem blockingReadKey_eval :
    waitForKey [13] = some (10, [])
    ∧ waitForKey [0, 0x48] = some (ARROW_UP, [])
    ∧ waitForKey [0, 0x50] = some (ARROW_DOWN, [])
    ∧ waitForKey [0, 0x4B] = some (ARROW_LEFT, [])
    ∧ waitForKey [0, 0x4D] = some (ARROW_RIGHT, [])
    ∧ waitForKey [97] = some (97, [])
    ∧ waitForKey [0xE0, 0x48] = some (-32, [0x48])
    ∧ (-32 : Int) ≠ ARROW_UP := by
  decide

/-- Claim C8: the first throttle call on a handle records the current tick
and returns without sleeping; every later call advances the internal target
by the requested interval converted to ticks and sleeps exactly when the
current tick has not reached the target; consequently a handle whose calls
all request interval 0 never sleeps (given non-decreasing clock readings). -/
theorem throttle_contract :
    (∀ (cps : ℚ) (ms : Int) (now last : ℚ),
       throttle cps ms now ⟨false, last⟩ = (⟨true, now⟩, none))
  ∧ (∀ (cps : ℚ) (ms : Int) (now : ℚ) (s : TState), s.throttleInit = true →
       throttle cps ms now s
         = ({ s with throttleLast := s.throttleLast + (ms : ℚ) / 1000 * cps },
            if now < s.throttleLast + (ms : ℚ) / 1000 * cps
            then some (s.throttleLast + (ms : ℚ) / 1000 * cps - now) else none))
  ∧ (∀ (cps x : ℚ) (reads : List ℚ), List.Pairwise (· ≤ ·) reads →
       ∀ o ∈ (runThrottle cps ⟨false, x⟩
           (reads.map (fun (q : ℚ) => ((0 : Int), q)))).2, o = none) := by
  refine ⟨throttle_first, throttle_next, ?_⟩
  intro cps x reads hpw o ho
  cases reads with
  | nil => simp [runThrottle] at ho
  | cons q qs =>
    have hstep : runThrottle cps ⟨false, x⟩
          ((q :: qs).map (fun (q : ℚ) => ((0 : Int), q)))
        = ((runThrottle cps ⟨true, q⟩ (qs.map (fun (q : ℚ) => ((0 : Int), q)))).1,
           none :: (runThrottle cps ⟨true, q⟩
             (qs.map (fun (q : ℚ) => ((0 : Int), q)))).2) := by
      simp [runThrottle, throttle_first]
    rw [hstep] at ho
    rcases List.mem_cons.mp ho with h1 | h1
    · exact h1
    · rcases List.pairwise_cons.mp hpw with ⟨hq, hqs⟩
      exact runThrottle_zero_init qs cps q hq o h1

/-- Witness for claim C8: a second call with the target still ahead sleeps
for the difference, and a run of zero-interval calls never sleeps. -/
theorem throttle_contract_witness :
    ((⟨true, (5 : ℚ)⟩ : TState).throttleInit = true
      ∧ throttle 1000 100 5 ⟨true, 5⟩ = (⟨true, 105⟩, some 100))
    ∧ (List.Pairwise (· ≤ ·) [(0 : ℚ), 1]
      ∧ ∀ o ∈ (runThrottle 1000 ⟨false, 0⟩
          ([(0 : ℚ), 1].map (fun (q : ℚ) => ((0 : Int), q)))).2, o = none) := by
  constructor
  · refine ⟨rfl, ?_⟩
    rw [throttle_contract.2.1 1000 100 5 ⟨true, 5⟩ rfl]
    norm_num
  · have hpw : List.Pairwise (· ≤ ·) [(0 : ℚ), 1] := by
      simp [List.pairwise_cons]
    exact ⟨hpw, throttle_contract.2.2 1000 0 [0, 1] hpw⟩

/-- Claim C9: registering a color twice at the same id leaves the table in
exactly the state the second registration alone produces, and registering
the same descriptor twice is idempotent. -/
theorem registerColor_overwrites (colors : Fin 256 → COLOR) (colorId : Fin 256)
    (f1 b1 : Int) (fb1 bb1 : Bool) (f2 b2 : Int) (fb2 bb2 : Bool) :
    initColor (initColor colors colorId f1 b1 fb1 bb1) colorId f2 b2 fb2 bb2
      = initColor colors colorId f2 b2 fb2 bb2
    ∧ initColor (initColor colors colorId f2 b2 fb2 bb2) colorId f2 b2 fb2 bb2
      = initColor colors colorId f2 b2 fb2 bb2 :=
  ⟨Function.update_idem _ _ _, Function.update_idem _ _ _⟩

/-- Claim C10: every key the blocking read delivers to the readLine loop is
truncated to its low byte before the backspace test, the delimiter match and
the buffer append; in particular an arrow sentinel (modelled per the spec as
256 for arrow up) is echoed and appended as its low byte 0 rather than being
filtered out or kept distinguishable. -/
theorem readLine_truncates_keys :
    (∀ (delims acc : List Nat) (t : TermState) (k : Int) (rest : List Int),
       lowByte k ≠ 8 → delims.contains (lowByte k) = false →
       waitForInputGo delims acc t (k :: rest)
         = waitForInputGo delims (acc ++ [lowByte k])
             (outputChar t (lowByte k)) rest)
  ∧ resultView (waitForInput [10] initialTerm [ARROW_UP, 10])
      = some ([lowByte ARROW_UP], ⟨0, 1⟩, [])
  ∧ lowByte ARROW_UP = 0 :=
  ⟨go_append, by decide, by decide⟩

/-- Witness for claim C10 at the concrete arrow-up sentinel. -/
theorem readLine_truncates_keys_witness :
    lowByte ARROW_UP ≠ 8
    ∧ ([10] : List Nat).contains (lowByte ARROW_UP) = false
    ∧ waitForInputGo [10] [] initialTerm [ARROW_UP]
        = waitForInputGo [10] ([] ++ [lowByte ARROW_UP])
            (outputChar initialTerm (lowByte ARROW_UP)) [] :=
  ⟨by decide, by decide,
    readLine_truncates_keys.1 [10] [] initialTerm ARROW_UP [] (by decide) (by decide)⟩
